import Mathlib

/-!
Verification of the pyMOR `Model` interface (`src/pymor/models/interface.py`)
against its design specification.

The file shallowly embeds the `Model` class methods (`__init__`, `solve`,
`output`, `estimate_error`, `estimate`, `visualize`) in Lean.  Collaborators
that are referenced by the source file but whose code is not part of the
given sources (`Mu`, `Parameters.parse`, `Parameters.assert_compatible`,
`CacheableObject.cached_method_call`, `FrozenDict`, `induced_norm`,
`Deprecated`) are modelled from the specification; each such definition
carries a doc comment starting with `Modelled from the spec:`.

Numeric vectors are embedded as `List Int`; keyword arguments as
association lists of value-comparable scalars.
-/

namespace PyMOR

/-- Modelled from the spec: the error taxonomy (§7) plus the generic Python
failure kinds the spec contrasts them with.  `CapabilityError` models the
distinct exception (`NotImplementedError` with an explanatory message in the
source) raised when an optional capability has no configured collaborator;
`AttributeError` models a generic Python attribute failure, which the spec
insists is not what a missing capability raises. -/
inductive Err where
  | ParameterError
  | CachingError
  | CapabilityError
  | AttributeError
  | IndexError
deriving DecidableEq, Repr

/-- Modelled from the spec: a ParameterSpec is an immutable mapping from
parameter name to a nonnegative integer dimension (§3), embedded as an
association list in declaration order. -/
abbrev Parameters := List (String × Nat)

/-- Modelled from the spec: a canonical ParameterValue (`Mu`) is an immutable
mapping from parameter name to a fixed-length numeric vector (§3), embedded
as an association list in spec order; equality is value equality. -/
abbrev Mu := List (String × List Int)

/-- Association-list lookup of a named vector (first binding wins, as in a
Python dict that never holds duplicate keys). -/
def lookupVec (k : String) : List (String × List Int) → Option (List Int)
  | [] => none
  | (k2, v) :: rest => if k2 = k then some v else lookupVec k rest

/-- Modelled from the spec: the loose input shapes `parse` accepts (§4.1):
absence, a name→vector mapping, a flat vector, or an already-canonical
ParameterValue. -/
inductive MuInput where
  | absent
  | named (d : List (String × List Int))
  | flat (v : List Int)
  | mu (m : Mu)
deriving DecidableEq, Repr

/-- Total dimension of a spec: the sum of all declared dimensions. -/
def totalDim : Parameters → Nat
  | [] => 0
  | (_, d) :: rest => d + totalDim rest

/-- Modelled from the spec: compatibility of a ParameterValue with a spec —
every name in the spec is present in `mu` with matching dimension (§4.1). -/
def isCompatible (p : Parameters) (m : Mu) : Bool :=
  p.all fun kd =>
    match lookupVec kd.1 m with
    | some vec => decide (vec.length = kd.2)
    | none => false

/-- Modelled from the spec: `assert_compatible(mu, spec)` fails with
ParameterError unless every name in the spec is present in `mu` with matching
dimension; succeeds otherwise (§4.1). -/
def assert_compatible (p : Parameters) (m : Mu) : Except Err Unit :=
  if isCompatible p m then .ok () else .error .ParameterError

/-- Split a flat vector positionally into a canonical ParameterValue in
spec-declared order (the flat-vector case of §4.1). -/
def splitFlat : Parameters → List Int → Mu
  | [], _ => []
  | (k, d) :: rest, w => (k, w.take d) :: splitFlat rest (w.drop d)

/-- Build a canonical ParameterValue from a name→vector mapping, walking the
spec in declaration order; fails with ParameterError when a declared name is
missing from the mapping or a named vector's length disagrees with its
declared dimension (the named-mapping case of §4.1). -/
def buildFromNamed : Parameters → List (String × List Int) → Except Err Mu
  | [], _ => .ok []
  | (k, d) :: rest, dict =>
    match lookupVec k dict with
    | none => .error .ParameterError
    | some vec =>
      if vec.length = d then
        (buildFromNamed rest dict).map fun m => (k, vec) :: m
      else
        .error .ParameterError

/-- Modelled from the spec: `parse(input, spec) -> ParameterValue` (§4.1).
Accepts absence (valid only if the spec is empty), a name→vector mapping
(fails on an unknown name or a length mismatch), a flat vector assigned
positionally in spec-declared order (fails when its total length disagrees
with the spec's total dimension), or an already-canonical ParameterValue
(returned unchanged if already compatible, ParameterError otherwise). -/
def Parameters.parse (p : Parameters) (input : MuInput) : Except Err Mu :=
  match input with
  | .absent => if p = [] then .ok [] else .error .ParameterError
  | .named d =>
    if d.all (fun kv => p.any fun pd => pd.1 = kv.1) then
      buildFromNamed p d
    else
      .error .ParameterError
  | .flat w =>
    if w.length = totalDim p then .ok (splitFlat p w) else .error .ParameterError
  | .mu m => if isCompatible p m then .ok m else .error .ParameterError

/-- Keyword arguments forwarded through `solve`, embedded as an association
list of value-comparable scalars. -/
abbrev Kwargs := List (String × Int)

/-- Result shape of the wrapped numeric solve function (§6): a solution, or
a `(solution, output)` pair when `return_output` is set. -/
inductive SolveResult where
  | sol (s : List Int)
  | pair (s : List Int) (o : List Int)
deriving DecidableEq, Repr

/-- Modelled from the spec: a cache key is the deterministic fingerprint of
(owning object's value-state fingerprint, method identifier, normalized
argument tuple including any ParameterValue by content) (§3, §4.3). -/
structure CacheKey where
  stateFingerprint : String
  methodId : String
  mu : Mu
  return_output : Bool
  kwargs : Kwargs
deriving DecidableEq, Repr

/-- Modelled from the spec: a CacheRegion is a key→result store (§3),
embedded as an association list of entries, newest first. -/
abbrev CacheRegion := List (CacheKey × SolveResult)

/-- Lookup in a cache region (first binding wins; equal keys never coexist
because insertion only happens on a miss). -/
def CacheRegion.lookup (c : CacheRegion) (k : CacheKey) : Option SolveResult :=
  match c with
  | [] => none
  | (k2, r) :: rest => if k2 = k then some r else CacheRegion.lookup rest k

/-- Outcome of one memoized dispatch: the produced result, the updated
region, how many times the wrapped function was invoked during this call,
and how many cache lookups were performed. -/
structure DispatchOutcome where
  result : SolveResult
  cache : CacheRegion
  invocations : Nat
  lookups : Nat
deriving DecidableEq, Repr

/-- Modelled from the spec: the memoized dispatcher
`CacheableObject.cached_method_call` (§4.3).  With caching disabled (the
region selector is the disabled sentinel, here `enabled = false`) the wrapped
function is always called directly and nothing is stored.  With caching
enabled the key is looked up in the region: on a hit the stored result is
returned and the wrapped function is not invoked; on a miss the wrapped
function is invoked, its result stored under the key, and returned. -/
def cached_method_call (enabled : Bool) (c : CacheRegion) (key : CacheKey)
    (f : Unit → SolveResult) : DispatchOutcome :=
  if enabled then
    match CacheRegion.lookup c key with
    | some r => ⟨r, c, 0, 1⟩
    | none =>
      let r := f ()
      ⟨r, (key, r) :: c, 1, 1⟩
  else
    ⟨f (), c, 1, 0⟩

/-- A norm object; `induced` is the norm induced by an inner product
operator. -/
inductive Norm where
  | induced (op : Int)
deriving DecidableEq, Repr

/-- Modelled from the spec: `induced_norm` (imported collaborator from
`pymor.operators.constructions`) returns the norm induced by an inner
product operator; operators are embedded as opaque integer tokens. -/
def induced_norm (op : Int) : Norm :=
  Norm.induced op

/-- Modelled from the spec: `FrozenDict` (imported collaborator from
`pymor.tools.frozendict`), an immutable dict — embedded as a distinct
structure wrapping the entry list, on which no update operation exists. -/
structure FrozenDict where
  entries : List (String × Int)
deriving DecidableEq, Repr

/-- An attribute value set on the model instance by `__init__`: an inner
product operator (`<k>_product`) or its induced norm (`<k>_norm`). -/
inductive Attr where
  | product (op : Int)
  | norm (n : Norm)
deriving DecidableEq, Repr

/-- The model's own data: its aggregated parameter signature (modelled from
§4.2 as an already-frozen spec), identifying fields, the cache-region
selector, the product attributes set by `__init__`, and the wrapped
`_solve` function (§6 collaborator contract). -/
structure ModelData where
  parameters : Parameters
  name : String
  stateFingerprint : String
  cachingEnabled : Bool
  products : FrozenDict
  attrs : List (String × Attr)
  solveFn : Mu → Bool → Kwargs → SolveResult

/-- The error-estimator collaborator (§6): `estimate_error(U, mu, model) ->
error value`.  It receives the model itself as `m=self`; the embedding
passes the model's data. -/
structure ErrorEstimator where
  estimate_error : List Int → MuInput → ModelData → Int

/-- The visualizer collaborator (§6): `visualize(U, model, **kwargs)`.  Its
returned value is embedded as an opaque integer token. -/
structure Visualizer where
  visualize : List Int → ModelData → Kwargs → Int

/-- A `Model` instance: its own data plus the optional collaborators set by
`__init__` (`error_estimator`, `visualizer`). -/
structure Model where
  data : ModelData
  error_estimator : Option ErrorEstimator
  visualizer : Option Visualizer

/-- Outcome of a consumer-facing call: a result or an error, the cache
region after the call, and the observable invocation/lookup counts. -/
structure Outcome (α : Type) where
  result : Except Err α
  cache : CacheRegion
  solveInvocations : Nat
  cacheLookups : Nat

/-- The normalization step at the top of `Model.solve`:
`if not isinstance(mu, Mu): mu = self.parameters.parse(mu)` — an input that
already is a canonical `Mu` is passed through unchanged without re-parsing,
any other shape is parsed. -/
def solveNormalize (p : Parameters) (input : MuInput) : Except Err Mu :=
  match input with
  | .mu v => .ok v
  | i => Parameters.parse p i

/-- The cached dispatch step at the end of `Model.solve`:
`return self.cached_method_call(self._solve, mu=mu,
return_output=return_output, **kwargs)`, keyed on the model's value-state
fingerprint, the method identifier and the normalized arguments. -/
def Model.dispatchSolve (m : Model) (c : CacheRegion) (v : Mu)
    (return_output : Bool) (kw : Kwargs) : Outcome SolveResult :=
  let d := cached_method_call m.data.cachingEnabled c
    ⟨m.data.stateFingerprint, "_solve", v, return_output, kw⟩
    (fun _ => m.data.solveFn v return_output kw)
  ⟨.ok d.result, d.cache, d.invocations, d.lookups⟩

/-- Embedding of `Model.solve` (`interface.py` lines 55–80): normalize `mu`
(parse unless it already is a `Mu`), assert compatibility against the
model's parameter signature, then dispatch `_solve` through
`cached_method_call`. -/
def Model.solve (m : Model) (c : CacheRegion) (input : MuInput)
    (return_output : Bool) (kw : Kwargs) : Outcome SolveResult :=
  match solveNormalize m.data.parameters input with
  | .error e => ⟨.error e, c, 0, 0⟩
  | .ok v =>
    match assert_compatible m.data.parameters v with
    | .error e => ⟨.error e, c, 0, 0⟩
    | .ok _ => Model.dispatchSolve m c v return_output kw

/-- Python's `x[1]` applied to the value returned by `solve`: the second
component of a `(solution, output)` pair; indexing a bare solution with `1`
is an indexing failure. -/
def secondComponent : SolveResult → Except Err (List Int)
  | .pair _ o => .ok o
  | .sol _ => .error .IndexError

/-- Embedding of `Model.output` (`interface.py` lines 82–97):
`return self.solve(mu=mu, return_output=True, **kwargs)[1]`. -/
def Model.output (m : Model) (c : CacheRegion) (input : MuInput)
    (kw : Kwargs) : Outcome (List Int) :=
  let s := Model.solve m c input true kw
  ⟨s.result.bind secondComponent, s.cache, s.solveInvocations, s.cacheLookups⟩

/-- Embedding of `Model.estimate_error` (`interface.py` lines 99–120): if an
error estimator is configured, delegate
`self.error_estimator.estimate_error(U, mu=mu, m=self)`; otherwise raise the
distinct missing-capability error (`NotImplementedError` in the source, the
kind the spec's taxonomy names CapabilityError). -/
def Model.estimate_error (m : Model) (U : List Int) (mu : MuInput) :
    Except Err Int :=
  match m.error_estimator with
  | some ee => .ok (ee.estimate_error U mu m.data)
  | none => .error .CapabilityError

/-- Modelled from the spec: the `Deprecated` decorator (imported from
`pymor.tools.deprecated`) wraps a function as a thin forwarder that emits a
one-time deprecation notice naming the replacement and returns the wrapped
function's result unchanged (§9 design note). -/
def Deprecated (alt : String) (f : α → β) : α → β × List String :=
  fun a => (f a, ["DeprecationWarning: use " ++ alt ++ " instead"])

/-- Embedding of the deprecated `Model.estimate` (`interface.py` lines
122–124): `@Deprecated('estimate_error')` over
`return self.estimate_error(U, mu)`.  The second component is the emitted
deprecation notice. -/
def Model.estimate (m : Model) : List Int × MuInput →
    Except Err Int × List String :=
  Deprecated "estimate_error" fun p => Model.estimate_error m p.1 p.2

/-- Embedding of `Model.visualize` (`interface.py` lines 126–141): if a
visualizer is configured, delegate `self.visualizer.visualize(U, self,
**kwargs)`; otherwise raise the distinct missing-capability error. -/
def Model.visualize (m : Model) (U : List Int) (kw : Kwargs) :
    Except Err Int :=
  match m.visualizer with
  | some vis => .ok (vis.visualize U m.data kw)
  | none => .error .CapabilityError

/-- The attribute bindings set by `Model.__init__` for the products mapping:
for each entry `(k, v)`, in order, `<k>_product ↦ v` then
`<k>_norm ↦ induced_norm v`. -/
def productAttrs (entries : List (String × Int)) : List (String × Attr) :=
  entries.flatMap fun kv =>
    [(kv.1 ++ "_product", Attr.product kv.2),
     (kv.1 ++ "_norm", Attr.norm (induced_norm kv.2))]

/-- The fields of the instance that `Model.__init__` populates: the
attribute bindings added by `setattr` and the values stored by
`__auto_init(locals())`. -/
structure InitResult where
  attrs : List (String × Attr)
  products : FrozenDict
  error_estimator : Option ErrorEstimator
  visualizer : Option Visualizer
  name : Option String

/-- Embedding of `Model.__init__` (`interface.py` lines 40–48):
`products = FrozenDict(products or {})`; if the resulting dict is non-empty,
set for each entry `(k, v)` the attributes `<k>_product` and `<k>_norm`
(the latter holding `induced_norm(v)`); finally `__auto_init(locals())`
stores `products`, `error_estimator`, `visualizer` and `name`. -/
def Model.init (products : Option (List (String × Int)))
    (error_estimator : Option ErrorEstimator) (visualizer : Option Visualizer)
    (name : Option String) : InitResult :=
  let frozen : FrozenDict := ⟨products.getD []⟩
  let attrs := if frozen.entries.isEmpty then [] else productAttrs frozen.entries
  ⟨attrs, frozen, error_estimator, visualizer, name⟩

/-! ### Concrete fixtures used by the witness theorems -/

/-- A concrete two-parameter spec: `a` of dimension 2, `b` of dimension 1. -/
def specAB : Parameters := [("a", 2), ("b", 1)]

/-- A canonical parameter value compatible with `specAB`. -/
def muAB : Mu := [("a", [3, 4]), ("b", [5])]

/-- A parameter value that is incompatible with `specAB` (wrong dimension
for `a`, missing `b`). -/
def muBad : Mu := [("a", [3])]

/-- A concrete deterministic wrapped solve function. -/
def testSolveFn : Mu → Bool → Kwargs → SolveResult :=
  fun mu ro _ => if ro then .pair [mu.length] [7] else .sol [mu.length]

/-- Concrete model data over `specAB`, caching enabled. -/
def testData : ModelData :=
  ⟨specAB, "test", "fp0", true, ⟨[]⟩, [], testSolveFn⟩

/-- A concrete model with no collaborators configured. -/
def testModel : Model := ⟨testData, none, none⟩

/-- A concrete error estimator returning the length of `U`. -/
def testEstimator : ErrorEstimator := ⟨fun U _ _ => (U.length : Int)⟩

/-- A concrete visualizer returning the length of `U` as its token. -/
def testVisualizer : Visualizer := ⟨fun U _ _ => (U.length : Int)⟩

/-- A concrete model with both collaborators configured. -/
def testModelFull : Model := ⟨testData, some testEstimator, some testVisualizer⟩

/-! ### Claim theorems -/

/-- Claim C1: in `Model.solve`, normalization and the compatibility check
happen before the cached dispatch — when the normalized `mu` is incompatible
with the model's parameter signature, solve fails with ParameterError, the
cache region is untouched, and neither a cache lookup nor an invocation of
the wrapped `_solve` occurs. -/
theorem solve_incompatible_fails_fast (m : Model) (c : CacheRegion)
    (input : MuInput) (ro : Bool) (kw : Kwargs) (v : Mu)
    (hnorm : solveNormalize m.data.parameters input = .ok v)
    (hincomp : isCompatible m.data.parameters v = false) :
    Model.solve m c input ro kw = ⟨.error .ParameterError, c, 0, 0⟩ := by
  simp [Model.solve, hnorm, assert_compatible, hincomp]

/-- Witness for C1 at a concrete incompatible input. -/
theorem solve_incompatible_fails_fast_witness :
    Model.solve testModel [] (.mu muBad) false []
      = ⟨.error .ParameterError, [], 0, 0⟩ :=
  solve_incompatible_fails_fast testModel [] (.mu muBad) false [] muBad rfl
    (by decide)

/-- Claim C2: `Model.output(mu, **kwargs)` returns exactly the second
component of the pair returned by `Model.solve(mu, return_output=True,
**kwargs)`. -/
theorem output_is_second_of_solve (m : Model) (c : CacheRegion)
    (input : MuInput) (kw : Kwargs) (s o : List Int)
    (h : (Model.solve m c input true kw).result = .ok (.pair s o)) :
    (Model.output m c input kw).result = .ok o := by
  simp [Model.output, h, secondComponent, Except.bind]

/-- Witness for C2 at a concrete model and parameter value. -/
theorem output_is_second_of_solve_witness :
    (Model.output testModel [] (.mu muAB) []).result = .ok [7] :=
  output_is_second_of_solve testModel [] (.mu muAB) [] [2] [7] rfl

/-- Claim C3: `Model.estimate_error(U, mu)` returns the configured error
estimator's result on `(U, mu, model)`, and fails with the distinct
missing-capability error — not a generic attribute failure — when no
estimator is configured. -/
theorem estimate_error_delegates_or_capability (m : Model) (U : List Int)
    (mu : MuInput) :
    (∀ ee, m.error_estimator = some ee →
        Model.estimate_error m U mu = .ok (ee.estimate_error U mu m.data))
    ∧ (m.error_estimator = none →
        Model.estimate_error m U mu = .error .CapabilityError)
    ∧ Err.CapabilityError ≠ Err.AttributeError := by
  refine ⟨fun ee hee => ?_, fun hn => ?_, by decide⟩
  · simp [Model.estimate_error, hee]
  · simp [Model.estimate_error, hn]

/-- Witness for C3: the estimator branch and the missing-capability branch
at concrete models. -/
theorem estimate_error_delegates_or_capability_witness :
    Model.estimate_error testModelFull [1, 2] .absent = .ok 2
    ∧ Model.estimate_error testModel [1, 2] .absent
        = .error .CapabilityError :=
  ⟨(estimate_error_delegates_or_capability testModelFull [1, 2] .absent).1
      testEstimator rfl,
   (estimate_error_delegates_or_capability testModel [1, 2] .absent).2.1 rfl⟩

/-- Claim C4: `Model.visualize(U, **kwargs)` delegates to the configured
visualizer called with `(U, model, **kwargs)`, and fails with the distinct
missing-capability error when no visualizer is configured. -/
theorem visualize_delegates_or_capability (m : Model) (U : List Int)
    (kw : Kwargs) :
    (∀ vis, m.visualizer = some vis →
        Model.visualize m U kw = .ok (vis.visualize U m.data kw))
    ∧ (m.visualizer = none →
        Model.visualize m U kw = .error .CapabilityError) := by
  refine ⟨fun vis hv => ?_, fun hn => ?_⟩
  · simp [Model.visualize, hv]
  · simp [Model.visualize, hn]

/-- Witness for C4: the visualizer branch and the missing-capability branch
at concrete models. -/
theorem visualize_delegates_or_capability_witness :
    Model.visualize testModelFull [1, 2, 3] [] = .ok 3
    ∧ Model.visualize testModel [1, 2, 3] [] = .error .CapabilityError :=
  ⟨(visualize_delegates_or_capability testModelFull [1, 2, 3] []).1
      testVisualizer rfl,
   (visualize_delegates_or_capability testModel [1, 2, 3] []).2 rfl⟩

/-- Claim C5: an input that already is a canonical `Mu` is passed through
`Model.solve`'s normalization unchanged (no re-parsing) and, when
compatible, reaches the cached dispatch as-is; every other input shape
(absence, named mapping, flat vector) is first normalized via
`Parameters.parse`. -/
theorem solve_mu_passthrough (m : Model) (c : CacheRegion) (v : Mu)
    (ro : Bool) (kw : Kwargs)
    (hcomp : isCompatible m.data.parameters v = true) :
    solveNormalize m.data.parameters (.mu v) = .ok v
    ∧ Model.solve m c (.mu v) ro kw = Model.dispatchSolve m c v ro kw
    ∧ (∀ d, solveNormalize m.data.parameters (.named d)
        = Parameters.parse m.data.parameters (.named d))
    ∧ (∀ w, solveNormalize m.data.parameters (.flat w)
        = Parameters.parse m.data.parameters (.flat w))
    ∧ solveNormalize m.data.parameters .absent
        = Parameters.parse m.data.parameters .absent := by
  refine ⟨rfl, ?_, fun d => rfl, fun w => rfl, rfl⟩
  simp [Model.solve, solveNormalize, assert_compatible, hcomp]

/-- Witness for C5 at a concrete compatible canonical value. -/
theorem solve_mu_passthrough_witness :
    solveNormalize testModel.data.parameters (.mu muAB) = .ok muAB
    ∧ Model.solve testModel [] (.mu muAB) false []
        = Model.dispatchSolve testModel [] muAB false [] :=
  ⟨(solve_mu_passthrough testModel [] muAB false [] (by decide)).1,
   (solve_mu_passthrough testModel [] muAB false [] (by decide)).2.1⟩

/-- Claim C8: the deprecated `Model.estimate(U, mu)` is a thin forwarding
alias — its returned value is exactly the result of
`Model.estimate_error(U, mu)` (and hence it fails exactly when
`estimate_error` fails), the deprecation notice aside. -/
theorem estimate_forwards_to_estimate_error (m : Model) (U : List Int)
    (mu : MuInput) :
    (Model.estimate m (U, mu)).1 = Model.estimate_error m U mu := rfl

/-- Claim C9: `Model.__init__` with a non-empty products mapping sets, for
each entry `(k, v)`, an attribute `<k>_product` holding `v` and an attribute
`<k>_norm` holding the norm induced by `v`; with an empty or absent mapping
no such attributes are added; and the stored `products` attribute is the
frozen dict of the given entries. -/
theorem init_products_attrs (prods : List (String × Int))
    (ee : Option ErrorEstimator) (vis : Option Visualizer)
    (nm : Option String) :
    ((Model.init (some prods) ee vis nm).products = ⟨prods⟩
      ∧ ∀ kv ∈ prods,
          ((kv.1 ++ "_product", Attr.product kv.2)
              ∈ (Model.init (some prods) ee vis nm).attrs
            ∧ (kv.1 ++ "_norm", Attr.norm (induced_norm kv.2))
              ∈ (Model.init (some prods) ee vis nm).attrs))
    ∧ (Model.init none ee vis nm).attrs = []
    ∧ (Model.init (some []) ee vis nm).attrs = []
    ∧ (Model.init none ee vis nm).products = ⟨[]⟩ := by
  refine ⟨⟨rfl, fun kv hkv => ?_⟩, rfl, rfl, rfl⟩
  have hne : prods.isEmpty = false := by
    cases prods with
    | nil => cases hkv
    | cons x xs => rfl
  constructor <;>
    · simp only [Model.init, Option.getD, hne, if_neg Bool.false_ne_true,
        productAttrs, List.mem_flatMap]
      exact ⟨kv, hkv, by simp⟩

/-- Witness for C9 at a concrete one-entry products mapping. -/
theorem init_products_attrs_witness :
    ("h1_product", Attr.product 5)
        ∈ (Model.init (some [("h1", 5)]) none none none).attrs
    ∧ ("h1_norm", Attr.norm (induced_norm 5))
        ∈ (Model.init (some [("h1", 5)]) none none none).attrs :=
  (init_products_attrs [("h1", 5)] none none none).1.2 ("h1", 5)
    (by simp)

/-- Claim C10: whenever `Model.solve` reaches the cached dispatch (a cache
lookup or an invocation of the wrapped `_solve` occurred), the forwarded
`mu` is a canonical `Mu` produced by the normalization step for which the
compatibility assertion held — never a raw mapping, flat vector or absent
input. -/
theorem solve_dispatch_only_compatible_mu (m : Model) (c : CacheRegion)
    (input : MuInput) (ro : Bool) (kw : Kwargs)
    (h : 0 < (Model.solve m c input ro kw).solveInvocations
        + (Model.solve m c input ro kw).cacheLookups) :
    ∃ v, solveNormalize m.data.parameters input = .ok v
      ∧ isCompatible m.data.parameters v = true
      ∧ Model.solve m c input ro kw = Model.dispatchSolve m c v ro kw := by
  cases hn : solveNormalize m.data.parameters input with
  | error e => simp [Model.solve, hn] at h
  | ok v =>
    cases hc : isCompatible m.data.parameters v with
    | false => simp [Model.solve, hn, assert_compatible, hc] at h
    | true =>
      exact ⟨v, rfl, hc, by simp [Model.solve, hn, assert_compatible, hc]⟩

/-- Witness for C10 at a concrete call that reaches the dispatch. -/
theorem solve_dispatch_only_compatible_mu_witness :
    ∃ v, solveNormalize testModel.data.parameters (.mu muAB) = .ok v
      ∧ isCompatible testModel.data.parameters v = true
      ∧ Model.solve testModel [] (.mu muAB) false []
          = Model.dispatchSolve testModel [] v false [] :=
  solve_dispatch_only_compatible_mu testModel [] (.mu muAB) false []
    (by decide)

/-- Claim C6: with caching enabled, two `solve` calls with value-equal
parameter values and identical remaining arguments, the first of which finds
no prior entry, return value-equal results, and the wrapped `_solve` is
invoked exactly once across both calls — the second, cache-hit call does
not invoke it. -/
theorem solve_cached_invoked_once (m : Model) (c : CacheRegion)
    (mu1 mu2 : Mu) (ro : Bool) (kw : Kwargs)
    (henabled : m.data.cachingEnabled = true)
    (heq : mu1 = mu2)
    (hcomp : isCompatible m.data.parameters mu1 = true)
    (hfresh : CacheRegion.lookup c
        ⟨m.data.stateFingerprint, "_solve", mu1, ro, kw⟩ = none) :
    (Model.solve m c (.mu mu1) ro kw).result
        = (Model.solve m (Model.solve m c (.mu mu1) ro kw).cache
            (.mu mu2) ro kw).result
    ∧ (Model.solve m c (.mu mu1) ro kw).solveInvocations = 1
    ∧ (Model.solve m (Model.solve m c (.mu mu1) ro kw).cache
        (.mu mu2) ro kw).solveInvocations = 0 := by
  subst heq
  simp [Model.solve, solveNormalize, assert_compatible, hcomp,
    Model.dispatchSolve, cached_method_call, henabled, hfresh,
    CacheRegion.lookup]

/-- Witness for C6 at a concrete model with an empty initial region. -/
theorem solve_cached_invoked_once_witness :
    (Model.solve testModel [] (.mu muAB) false []).result
        = (Model.solve testModel
            (Model.solve testModel [] (.mu muAB) false []).cache
            (.mu muAB) false []).result
    ∧ (Model.solve testModel [] (.mu muAB) false []).solveInvocations = 1
    ∧ (Model.solve testModel
        (Model.solve testModel [] (.mu muAB) false []).cache
        (.mu muAB) false []).solveInvocations = 0 :=
  solve_cached_invoked_once testModel [] muAB muAB false [] rfl rfl
    (by decide) rfl

/-! ### Compatibility of parse results, and idempotence of parse -/

/-- Characterization of `isCompatible`: every declared name is bound in the
value to a vector of the declared dimension. -/
theorem isCompatible_iff {p : Parameters} {m : Mu} :
    isCompatible p m = true ↔
      ∀ kd ∈ p, ∃ vec, lookupVec kd.1 m = some vec ∧ vec.length = kd.2 := by
  unfold isCompatible
  rw [List.all_eq_true]
  constructor
  · intro h kd hkd
    have hck := h kd hkd
    cases hv : lookupVec kd.1 m with
    | none => rw [hv] at hck; exact absurd hck (by simp)
    | some vec => rw [hv] at hck; exact ⟨vec, rfl, by simpa using hck⟩
  · intro h kd hkd
    obtain ⟨vec, hv, hl⟩ := h kd hkd
    rw [hv]
    simp [hl]

/-- Splitting a flat vector of total spec length binds every declared name
to a vector of its declared dimension (spec names assumed unique, the §3
invariant). -/
theorem lookupVec_splitFlat {p : Parameters} {w : List Int} {k : String}
    {d : Nat} (hnd : (p.map Prod.fst).Nodup) (hlen : w.length = totalDim p)
    (hmem : (k, d) ∈ p) :
    ∃ vec, lookupVec k (splitFlat p w) = some vec ∧ vec.length = d := by
  induction p generalizing w with
  | nil => cases hmem
  | cons kd rest ih =>
    obtain ⟨k0, d0⟩ := kd
    simp only [List.map_cons, List.nodup_cons] at hnd
    obtain ⟨hk0, hndr⟩ := hnd
    simp only [totalDim] at hlen
    rcases List.mem_cons.mp hmem with heq | hmemr
    · rw [Prod.mk.injEq] at heq
      obtain ⟨rfl, rfl⟩ := heq
      refine ⟨w.take d, by simp [splitFlat, lookupVec], ?_⟩
      rw [List.length_take]
      omega
    · have hk : k ≠ k0 := by
        intro hkk
        subst hkk
        exact hk0 (List.mem_map.mpr ⟨(k, d), hmemr, rfl⟩)
      have hstep : lookupVec k (splitFlat ((k0, d0) :: rest) w)
          = lookupVec k (splitFlat rest (w.drop d0)) := by
        simp [splitFlat, lookupVec, Ne.symm hk]
      rw [hstep]
      exact ih hndr (by rw [List.length_drop]; omega) hmemr

/-- A successful `buildFromNamed` binds every declared name to a vector of
its declared dimension (spec names assumed unique). -/
theorem buildFromNamed_ok_lookup {p : Parameters}
    {dict : List (String × List Int)} {v : Mu}
    (hnd : (p.map Prod.fst).Nodup)
    (hok : buildFromNamed p dict = .ok v)
    {k : String} {d : Nat} (hmem : (k, d) ∈ p) :
    ∃ vec, lookupVec k v = some vec ∧ vec.length = d := by
  induction p generalizing v with
  | nil => cases hmem
  | cons kd rest ih =>
    obtain ⟨k0, d0⟩ := kd
    simp only [List.map_cons, List.nodup_cons] at hnd
    obtain ⟨hk0, hndr⟩ := hnd
    simp only [buildFromNamed] at hok
    split at hok
    · cases hok
    · next vec0 hv0 =>
      split at hok
      · next hl0 =>
        cases hrest : buildFromNamed rest dict with
        | error e => rw [hrest] at hok; cases hok
        | ok v2 =>
          rw [hrest] at hok
          simp only [Except.map] at hok
          injection hok with hv
          subst hv
          rcases List.mem_cons.mp hmem with heq | hmemr
          · rw [Prod.mk.injEq] at heq
            obtain ⟨rfl, rfl⟩ := heq
            exact ⟨vec0, by simp [lookupVec], hl0⟩
          · have hk : k ≠ k0 := by
              intro hkk
              subst hkk
              exact hk0 (List.mem_map.mpr ⟨(k, d), hmemr, rfl⟩)
            have hstep : lookupVec k ((k0, vec0) :: v2) = lookupVec k v2 := by
              simp [lookupVec, Ne.symm hk]
            rw [hstep]
            exact ih hndr hrest hmemr
      · cases hok

/-- Every value produced by a successful `parse` is compatible with the spec
it was parsed against (spec names assumed unique). -/
theorem parse_ok_compatible {p : Parameters} {input : MuInput} {v : Mu}
    (hnd : (p.map Prod.fst).Nodup)
    (h : Parameters.parse p input = .ok v) :
    isCompatible p v = true := by
  cases input with
  | absent =>
    simp only [Parameters.parse] at h
    split at h
    · next hp =>
      injection h with hv
      subst hv
      subst hp
      rfl
    · cases h
  | named dict =>
    simp only [Parameters.parse] at h
    split at h
    · refine isCompatible_iff.mpr fun kd hkd => ?_
      obtain ⟨a, b⟩ := kd
      exact buildFromNamed_ok_lookup hnd h hkd
    · cases h
  | flat w =>
    simp only [Parameters.parse] at h
    split at h
    · next hlen =>
      injection h with hv
      subst hv
      refine isCompatible_iff.mpr fun kd hkd => ?_
      obtain ⟨a, b⟩ := kd
      exact lookupVec_splitFlat hnd hlen hkd
    · cases h
  | mu m =>
    simp only [Parameters.parse] at h
    split at h
    · next hc =>
      injection h with hv
      subst hv
      exact hc
    · cases h

/-- Claim C7: `parse` is idempotent — feeding a successful parse result back
into `parse` against the same spec yields the same value (the spec's names
are unique, the §3 ParameterSpec invariant). -/
theorem parse_idempotent (p : Parameters) (input : MuInput) (v : Mu)
    (hnd : (p.map Prod.fst).Nodup)
    (h : Parameters.parse p input = .ok v) :
    Parameters.parse p (.mu v) = Parameters.parse p input := by
  rw [h]
  simp [Parameters.parse, parse_ok_compatible hnd h]

/-- Witness for C7: re-parsing the result of parsing a concrete flat vector
yields the same value. -/
theorem parse_idempotent_witness :
    Parameters.parse specAB (.mu [("a", [1, 2]), ("b", [3])])
      = Parameters.parse specAB (.flat [1, 2, 3]) :=
  parse_idempotent specAB (.flat [1, 2, 3]) [("a", [1, 2]), ("b", [3])]
    (by decide) rfl

end PyMOR
